import Mathlib

/-!
Verification of `src/cmd/dynexec/C/dynexec.c` (the `dynexe` launcher).

The launcher is a single linear C program: it resolves its own directory,
optionally ascends out of a `bin/` directory, derives `shared/bin` and
`shared/lib`, scans `shared/lib` for a dynamic-linker file whose name the
POSIX regex `^ld-.*-.*\.so\..*` accepts, resolves the dispatch target, and
replaces itself via `execve` with
`[linker, "--library-path", sharedLib, target, forwarded args..., NULL]`.

We embed the program shallowly: strings are `List Char` (NUL-free C strings),
the filesystem-dependent inputs (the resolved executable directory, the
`stat` result of its parent, the enumeration of `shared/lib`) are explicit
parameters, and the observable behaviour is an `Outcome` value: either the
`execve` call (program, argument vector with its `NULL` sentinel, environment)
or a fatal exit with the diagnostic written to stderr and the exit status
(`EXIT_FAILURE = 1`).
-/

namespace Dynexec

/-- C strings (NUL-free), as lists of characters. -/
abbrev Str := List Char

/-- `DYNEXE_NAME` from dynexec.c. -/
def dynexeName : Str := "dynexe".toList

/-- `custom_basename` from dynexec.c: `strrchr(path, '/')` returns the suffix
after the last `'/'` when one exists, otherwise the whole path.  The fold
keeps the characters seen since the most recent slash. -/
def custom_basename (p : Str) : Str :=
  p.foldl (fun acc c => if c = '/' then [] else acc ++ [c]) []

/-- The file kind reported by `stat` (the `st_mode` type bits that the
program inspects through `S_ISREG`). -/
inductive FileKind where
  | regular
  | directory
  | other
deriving DecidableEq

/-- `is_file` from dynexec.c: `stat` must succeed (`some`) and the result
must satisfy `S_ISREG` — i.e. be a regular file.  A directory does not
satisfy `S_ISREG`. -/
def is_file (st : Option FileKind) : Bool :=
  match st with
  | some FileKind.regular => true
  | _ => false

/-- The Self-Locator logic of `main` (lines 80–88): `dynexeDir` is the
`dirname` of the resolved `/proc/self/exe`; `parentStat` is the `stat`
outcome of `dynexeDir ++ "/../"`; `canonParent` is what `realpath` would
return for that parent path.  The code ascends to the canonical parent only
when the directory's basename is `"bin"` and `is_file` holds of the parent
path. -/
def installRoot (dynexeDir : Str) (parentStat : Option FileKind)
    (canonParent : Str) : Str :=
  if custom_basename dynexeDir = "bin".toList ∧ is_file parentStat = true then
    canonParent
  else
    dynexeDir

/-- The literal `"ld-"` head of the linker-name regex. -/
def ldHead : Str := "ld-".toList

/-- The literal `".so."` segment of the linker-name regex. -/
def soDot : Str := ".so.".toList

/-- `hasPre pre s`: `s` begins with the literal `pre`. -/
def hasPre : Str → Str → Bool
  | [], _ => true
  | _ :: _, [] => false
  | p :: ps, c :: cs => decide (p = c) && hasPre ps cs

/-- All suffixes of a string, longest first (the positions a `.*` can skip
to). -/
def tails : Str → List Str
  | [] => [[]]
  | c :: cs => (c :: cs) :: tails cs

/-- The regex test performed by `match_linker_name`:
`regexec` of the POSIX basic regex `^ld-.*-.*\.so\..*` (compiled with flags
`0`) on the entry name.  `^` anchors at the start, each `.*` matches any
(possibly empty) run of arbitrary characters, and the match need not reach
the end of the string (the trailing `.*` makes that irrelevant).  The
backtracking search over the two `.*` is rendered as a search over
suffixes. -/
def regexAccepts (s : Str) : Bool :=
  hasPre ldHead s &&
  (tails (s.drop 3)).any (fun t =>
    hasPre ['-'] t &&
    (tails (t.drop 1)).any (fun u => hasPre soDot u))

/-- A token as the claim words it: one or more characters, none of which is
`'.'` or `'/'`. -/
def tokenOK (t : Str) : Bool :=
  decide (t ≠ []) && t.all (fun ch => decide (ch ≠ '.') && decide (ch ≠ '/'))

/-- All ways to split a string into a head part and a tail part. -/
def splitsAt : Str → List (Str × Str)
  | [] => [([], [])]
  | c :: cs => ([], c :: cs) :: (splitsAt cs).map (fun p => (c :: p.1, p.2))

/-- The name test as the claim words it (spec-side definition, for
comparison with `regexAccepts`): the literal `"ld-"`, then one or more
characters none of which is `'.'` or `'/'`, a literal `'-'`, another such
run, the literal `".so."`, then an arbitrary trailing run. -/
def claimAccepts (s : Str) : Bool :=
  hasPre ldHead s &&
  (splitsAt (s.drop 3)).any (fun p =>
    tokenOK p.1 &&
    (hasPre ['-'] p.2 &&
      (splitsAt (p.2.drop 1)).any (fun q =>
        tokenOK q.1 && hasPre soDot q.2)))

/-- One entry returned by `readdir` on `shared/lib`, together with the
outcome of `stat` on `sharedLib/name` (`none` when `stat` fails). -/
structure DirEntry where
  name : Str
  stat : Option FileKind
deriving DecidableEq

/-- The per-entry test of the `readdir` loop in `match_linker_name`:
`stat` succeeded, `S_ISREG`, and the regex accepts the entry name. -/
def entryMatches (e : DirEntry) : Bool :=
  is_file e.stat && regexAccepts e.name

/-- `match_linker_name` from dynexec.c, given a successful enumeration of
the library directory in `readdir` order: return the name (not the full
path) of the first entry that is a regular file and whose name the regex
accepts; `none` when no entry matches.  (The `opendir`/`regcomp` failure
exits are outside this model, which presupposes a successful
enumeration.) -/
def match_linker_name (entries : List DirEntry) : Option Str :=
  (entries.find? entryMatches).map DirEntry.name

/-- The inputs `main` obtains from the OS, made explicit:
the directory of the resolved executable, the `stat` of its parent path,
the canonical parent path, the enumeration of `shared/lib`, the argument
vector (`argv0` and the remaining arguments), and the inherited
environment `environ`. -/
structure Config where
  dynexeDir : Str
  parentStat : Option FileKind
  canonParent : Str
  libEntries : List DirEntry
  argv0 : Str
  args : List Str
  env : List Str
deriving DecidableEq

/-- The observable end of a run: either the `execve` call (program run,
argument vector including the terminating `NULL` sentinel rendered as
`none`, environment pointer passed), or a fatal exit carrying the stderr
diagnostic and the exit status (`EXIT_FAILURE = 1`). -/
inductive Outcome where
  | exec (prog : Str) (argVec : List (Option Str)) (env : List Str)
  | fail (msg : Str) (status : Nat)
deriving DecidableEq

/-- The InstallRoot computed by `main` for a configuration. -/
def rootOf (c : Config) : Str :=
  installRoot c.dynexeDir c.parentStat c.canonParent

/-- `shared_bin` in `main`: `"%s/shared/bin"` of the install root. -/
def binDirOf (c : Config) : Str := rootOf c ++ "/shared/bin".toList

/-- `shared_lib` in `main`: `"%s/shared/lib"` of the install root. -/
def libDirOf (c : Config) : Str := rootOf c ++ "/shared/lib".toList

/-- The Dispatch Resolver of `main` (lines 96–101): `bin_name` is the
basename of `argv[0]`; when it equals `DYNEXE_NAME` and `argc > 1`, the
first argument becomes the name and `argv`/`argc` shift left by one.
Returns the resolved name together with the arguments that the `execve`
loop will forward (`argv[1..argc-1]` after the shift). -/
def dispatch (argv0 : Str) (args : List Str) : Str × List Str :=
  let bn := custom_basename argv0
  match args with
  | x :: rest => if bn = dynexeName then (x, rest) else (bn, x :: rest)
  | [] => (bn, [])

/-- The resolved binary name for a configuration. -/
def binNameOf (c : Config) : Str := (dispatch c.argv0 c.args).1

/-- The forwarded arguments for a configuration. -/
def fwdOf (c : Config) : List Str := (dispatch c.argv0 c.args).2

/-- `bin` in `main`: `"%s/%s"` of `shared_bin` and `bin_name`. -/
def targetOf (c : Config) : Str := binDirOf c ++ '/' :: binNameOf c

/-- The `argc` value at the `execve` site, after the dispatch shift:
the program-name slot plus the forwarded arguments. -/
def adjustedArgc (c : Config) : Nat := 1 + (fwdOf c).length

/-- The literal `"--library-path"` flag placed at position 1 of the
`execve` vector. -/
def libFlag : Str := "--library-path".toList

/-- `main` from dynexec.c, after the OS-dependent inputs have been
gathered into `c`: compute the layout, dispatch, locate the linker, and
either build the `execve` call
`[linker, "--library-path", shared_lib, bin, argv[1..], NULL]`
or exit with `"No valid linker found in %s\n"` on stderr and
`EXIT_FAILURE`. -/
def runLauncher (c : Config) : Outcome :=
  match match_linker_name c.libEntries with
  | none =>
      Outcome.fail ("No valid linker found in ".toList ++ libDirOf c
        ++ "\n".toList) 1
  | some ln =>
      let linker := libDirOf c ++ '/' :: ln
      Outcome.exec linker
        (some linker :: some libFlag :: some (libDirOf c)
          :: some (targetOf c) :: ((fwdOf c).map some ++ [none]))
        c.env

theorem hasPre_iff (p s : Str) : hasPre p s = true ↔ ∃ r, s = p ++ r := by
  induction p generalizing s with
  | nil => simp [hasPre]
  | cons a ps ih =>
    cases s with
    | nil =>
      simp only [hasPre, List.cons_append]
      constructor
      · intro h; cases h
      · rintro ⟨r, hr⟩; cases hr
    | cons b bs =>
      simp only [hasPre, Bool.and_eq_true, decide_eq_true_eq, ih]
      constructor
      · rintro ⟨rfl, r, rfl⟩; exact ⟨r, rfl⟩
      · rintro ⟨r, hr⟩
        rw [List.cons_append] at hr
        injection hr with h1 h2
        exact ⟨h1.symm, r, h2⟩

theorem mem_tails (s t : Str) : t ∈ tails s ↔ ∃ a, s = a ++ t := by
  induction s with
  | nil =>
    simp only [tails, List.mem_singleton]
    constructor
    · rintro rfl; exact ⟨[], rfl⟩
    · rintro ⟨a, ha⟩
      rcases List.append_eq_nil.mp ha.symm with ⟨-, rfl⟩
      rfl
  | cons c cs ih =>
    simp only [tails, List.mem_cons, ih]
    constructor
    · rintro (rfl | ⟨a, rfl⟩)
      · exact ⟨[], rfl⟩
      · exact ⟨c :: a, rfl⟩
    · rintro ⟨a, ha⟩
      cases a with
      | nil => exact Or.inl ha.symm
      | cons d ds =>
        rw [List.cons_append] at ha
        injection ha with h1 h2
        exact Or.inr ⟨ds, h2⟩

theorem drop_three_of_ldHead (r : Str) : (ldHead ++ r).drop 3 = r := rfl

/-- C2 (amended). The regex test of `match_linker_name` accepts a filename
iff it starts with the literal `"ld-"`, followed by a possibly-empty run of
arbitrary characters, a literal `'-'`, another possibly-empty run of
arbitrary characters, and the literal `".so."` (anything, possibly nothing,
may follow): the runs are unrestricted, they may be empty and may contain
`'.'` or `'/'`. -/
theorem regexAccepts_iff (s : Str) :
    regexAccepts s = true ↔
      ∃ a b c, s = ldHead ++ a ++ '-' :: (b ++ soDot ++ c) := by
  unfold regexAccepts
  simp only [Bool.and_eq_true, List.any_eq_true, hasPre_iff, mem_tails]
  constructor
  · rintro ⟨⟨r, rfl⟩, t, ⟨a, ha⟩, ⟨⟨t2, rfl⟩, u, ⟨b, hb⟩, c, rfl⟩⟩
    rw [drop_three_of_ldHead] at ha
    subst ha
    rw [List.singleton_append] at hb ⊢
    rw [List.drop_one, List.tail_cons] at hb
    subst hb
    exact ⟨a, b, c, by simp [List.append_assoc]⟩
  · rintro ⟨a, b, c, rfl⟩
    refine ⟨⟨a ++ '-' :: (b ++ soDot ++ c), by simp [List.append_assoc]⟩, ?_⟩
    refine ⟨'-' :: (b ++ soDot ++ c), ⟨a, ?_⟩, ⟨b ++ soDot ++ c, rfl⟩,
      soDot ++ c, ⟨b, by simp [List.append_assoc]⟩, c, rfl⟩
    rw [List.append_assoc, drop_three_of_ldHead]

/-- Whenever the `stat` of the parent path reports a directory — the only
possible outcome for a path of the form `<dir>/../` when it resolves at
all — `is_file` is false, so the Self-Locator never ascends: the
`realpath(lower_dir)` branch of `main` is unreachable. -/
theorem installRoot_of_directory_parent (d cp : Str) :
    installRoot d (some FileKind.directory) cp = d := by
  simp [installRoot, is_file]

/-- C1. The claim says: when the launcher's directory has basename `"bin"`
and its parent exists as a traversable directory, the Self-Locator sets
InstallRoot to the canonical parent.  The code evaluated at exactly such an
input: the launcher resolved under `/opt/app/bin` with `/opt/app` an
existing directory (`stat` on `/opt/app/bin/../` reports a directory).
`is_file` applies `S_ISREG`, which is false for a directory, so the ascend
branch is not taken and InstallRoot stays `/opt/app/bin` — contradicting
the claim (and the code's own `// Check if we are in the "bin" directory`
intent, since `<dir>/../` can only ever resolve to a directory). -/
theorem c1_installRoot_bin_parent_eval :
    installRoot "/opt/app/bin".toList (some FileKind.directory)
      "/opt/app".toList = "/opt/app/bin".toList := by decide

/-- C2 (counterexample). The filename `"ld--.so."` refutes the claimed
characterization of the name test: the regex of `match_linker_name` accepts
it (each `.*` matches the empty run), while the claim's pattern — which
demands two nonempty runs of non-`'.'`/non-`'/'` characters around the
`'-'` — rejects it. -/
theorem c2_pattern_counterexample :
    regexAccepts "ld--.so.".toList = true ∧
      claimAccepts "ld--.so.".toList = false := by decide

/-- C3. When the basename of `argv[0]` is `"dynexe"` and at least one
further argument `x` is supplied, the Dispatch Resolver resolves the target
to `binDir ++ "/" ++ x` and forwards exactly the remaining arguments: both
the program-name slot and `x` are consumed, `x` is not forwarded. -/
theorem c3_dispatch_by_argument (c : Config) (x : Str) (rest : List Str)
    (h0 : custom_basename c.argv0 = dynexeName) (h1 : c.args = x :: rest) :
    targetOf c = binDirOf c ++ '/' :: x ∧ fwdOf c = rest := by
  constructor
  · simp [targetOf, binNameOf, dispatch, h0, h1]
  · simp [fwdOf, dispatch, h0, h1]

/-- A concrete configuration exercising dispatch-by-argument:
`/usr/bin/dynexe mytool --flag`, launcher directory `/opt/app`. -/
def cfgByArgument : Config where
  dynexeDir := "/opt/app".toList
  parentStat := none
  canonParent := []
  libEntries := []
  argv0 := "/usr/bin/dynexe".toList
  args := ["mytool".toList, "--flag".toList]
  env := []

theorem c3_dispatch_by_argument_witness :
    custom_basename cfgByArgument.argv0 = dynexeName ∧
      cfgByArgument.args = "mytool".toList :: ["--flag".toList] ∧
      targetOf cfgByArgument =
        binDirOf cfgByArgument ++ '/' :: "mytool".toList ∧
      fwdOf cfgByArgument = ["--flag".toList] :=
  ⟨by decide, rfl,
    c3_dispatch_by_argument cfgByArgument "mytool".toList ["--flag".toList]
      (by decide) rfl⟩

/-- C4. When the basename of `argv[0]` is not `"dynexe"`, the Dispatch
Resolver resolves the target to `binDir ++ "/" ++ basename(argv[0])` and
forwards all original arguments except slot zero, unchanged and in
order. -/
theorem c4_dispatch_by_rename (c : Config)
    (h : custom_basename c.argv0 ≠ dynexeName) :
    targetOf c = binDirOf c ++ '/' :: custom_basename c.argv0 ∧
      fwdOf c = c.args := by
  cases hargs : c.args with
  | nil =>
    constructor
    · simp [targetOf, binNameOf, dispatch, hargs]
    · simp [fwdOf, dispatch, hargs]
  | cons x rest =>
    constructor
    · simp [targetOf, binNameOf, dispatch, hargs, h]
    · simp [fwdOf, dispatch, hargs, h]

/-- A concrete configuration exercising dispatch-by-rename: the launcher
invoked under the name `mytool` with two arguments. -/
def cfgByRename : Config where
  dynexeDir := "/opt/app".toList
  parentStat := none
  canonParent := []
  libEntries := []
  argv0 := "/opt/app/shared/bin/mytool".toList
  args := ["-v".toList, "x".toList]
  env := []

theorem c4_dispatch_by_rename_witness :
    custom_basename cfgByRename.argv0 ≠ dynexeName ∧
      targetOf cfgByRename =
        binDirOf cfgByRename ++ '/' :: custom_basename cfgByRename.argv0 ∧
      fwdOf cfgByRename = ["-v".toList, "x".toList] :=
  ⟨by decide,
    (c4_dispatch_by_rename cfgByRename (by decide)).1,
    (c4_dispatch_by_rename cfgByRename (by decide)).2⟩

/-- C5. Whenever a run reaches process replacement (a linker was found),
the constructed argument vector is exactly
`[interpreterPath, "--library-path", libDir, targetPath] ++ forwarded`,
followed by the `NULL` sentinel in final position, and its length excluding
the sentinel is the dispatch-adjusted `argc` plus 3. -/
theorem c5_exec_vector (c : Config) (ln : Str)
    (h : match_linker_name c.libEntries = some ln) :
    ∃ front,
      runLauncher c =
        Outcome.exec (libDirOf c ++ '/' :: ln) (front ++ [none]) c.env ∧
      front = [some (libDirOf c ++ '/' :: ln), some libFlag,
        some (libDirOf c), some (targetOf c)] ++ (fwdOf c).map some ∧
      front.length = adjustedArgc c + 3 := by
  refine ⟨[some (libDirOf c ++ '/' :: ln), some libFlag, some (libDirOf c),
    some (targetOf c)] ++ (fwdOf c).map some, ?_, rfl, ?_⟩
  · simp [runLauncher, h]
  · simp [adjustedArgc, List.length_append, List.length_map]
    omega

/-- A concrete configuration whose run reaches `execve`. -/
def cfgExec : Config where
  dynexeDir := "/opt/app".toList
  parentStat := none
  canonParent := []
  libEntries := [⟨"ld-linux-x86-64.so.2".toList, some FileKind.regular⟩]
  argv0 := "dynexe".toList
  args := ["tool".toList]
  env := []

theorem c5_exec_vector_witness :
    match_linker_name cfgExec.libEntries =
      some "ld-linux-x86-64.so.2".toList ∧
    ∃ front,
      runLauncher cfgExec =
        Outcome.exec (libDirOf cfgExec ++ '/' :: "ld-linux-x86-64.so.2".toList)
          (front ++ [none]) cfgExec.env ∧
      front = [some (libDirOf cfgExec ++ '/' :: "ld-linux-x86-64.so.2".toList),
        some libFlag, some (libDirOf cfgExec), some (targetOf cfgExec)]
        ++ (fwdOf cfgExec).map some ∧
      front.length = adjustedArgc cfgExec + 3 :=
  ⟨by decide,
    c5_exec_vector cfgExec "ld-linux-x86-64.so.2".toList (by decide)⟩

/-- C6. `match_linker_name` returns the name (not the full path) of the
first entry, in enumeration order, that is a regular file and matches the
regex: for any decomposition of the listing into earlier non-matching
entries `pre`, a matching entry `e`, and arbitrary later entries `post`,
the result is `e.name`.  When exactly one matching entry exists this
instantiates to that entry. -/
theorem c6_first_match (pre post : List DirEntry) (e : DirEntry)
    (hpre : ∀ e', e' ∈ pre → entryMatches e' = false)
    (he : entryMatches e = true) :
    match_linker_name (pre ++ e :: post) = some e.name := by
  induction pre with
  | nil =>
    simp only [List.nil_append, match_linker_name]
    rw [List.find?_cons_of_pos _ he]
    rfl
  | cons p ps ih =>
    have hp : entryMatches p = false := hpre p (List.mem_cons_self p ps)
    simp only [List.cons_append, match_linker_name] at ih ⊢
    rw [List.find?_cons_of_neg _ (by simp [hp])]
    exact ih (fun e' h => hpre e' (List.mem_cons_of_mem p h))

theorem c6_first_match_witness :
    (∀ e', e' ∈ [(⟨"libfoo.so.1".toList, some FileKind.regular⟩ : DirEntry),
        ⟨"ld-linux-x86-64.so.2".toList, some FileKind.directory⟩] →
      entryMatches e' = false) ∧
    entryMatches ⟨"ld-musl-x86_64.so.1".toList, some FileKind.regular⟩ = true ∧
    match_linker_name
      ([⟨"libfoo.so.1".toList, some FileKind.regular⟩,
        ⟨"ld-linux-x86-64.so.2".toList, some FileKind.directory⟩] ++
        (⟨"ld-musl-x86_64.so.1".toList, some FileKind.regular⟩ : DirEntry) ::
        [⟨"ld-linux-aarch64.so.1".toList, some FileKind.regular⟩]) =
      some "ld-musl-x86_64.so.1".toList :=
  ⟨by decide, by decide,
    c6_first_match _ _ _ (by decide) (by decide)⟩

/-- The end-to-end scenario of the spec: InstallRoot `/opt/app`, a single
interpreter file `ld-linux-x86-64.so.2` in `shared/lib`, invocation
`dynexe mytool --flag val`. -/
def cfgOptApp : Config where
  dynexeDir := "/opt/app".toList
  parentStat := some FileKind.directory
  canonParent := "/opt".toList
  libEntries := [⟨"ld-linux-x86-64.so.2".toList, some FileKind.regular⟩]
  argv0 := "dynexe".toList
  args := ["mytool".toList, "--flag".toList, "val".toList]
  env := []

/-- C7. The end-to-end scenario: `binDir` and `libDir` are
`/opt/app/shared/bin` and `/opt/app/shared/lib`, and the run replaces the
process with the interpreter and the argument vector
`[.../ld-linux-x86-64.so.2, --library-path, /opt/app/shared/lib,
/opt/app/shared/bin/mytool, --flag, val]` (plus the `NULL` sentinel). -/
theorem c7_end_to_end :
    binDirOf cfgOptApp = "/opt/app/shared/bin".toList ∧
    libDirOf cfgOptApp = "/opt/app/shared/lib".toList ∧
    runLauncher cfgOptApp = Outcome.exec
      "/opt/app/shared/lib/ld-linux-x86-64.so.2".toList
      [some "/opt/app/shared/lib/ld-linux-x86-64.so.2".toList,
        some "--library-path".toList,
        some "/opt/app/shared/lib".toList,
        some "/opt/app/shared/bin/mytool".toList,
        some "--flag".toList, some "val".toList, none]
      [] := by decide

/-- C8. When the enumeration of `libDir` succeeds but holds no entry that
is both a regular file and regex-matching, the launcher exits with status
`EXIT_FAILURE = 1` after writing `"No valid linker found in <libDir>\n"`
to stderr, and no `execve` is attempted. -/
theorem c8_no_linker (c : Config)
    (h : match_linker_name c.libEntries = none) :
    runLauncher c =
      Outcome.fail ("No valid linker found in ".toList ++ libDirOf c
        ++ "\n".toList) 1 ∧
    ∀ p v e, runLauncher c ≠ Outcome.exec p v e := by
  refine ⟨by simp [runLauncher, h], fun p v e hx => ?_⟩
  rw [runLauncher, h] at hx
  exact Outcome.noConfusion hx

/-- A concrete `shared/lib` with no valid interpreter: one regular file
whose name the regex rejects, and one regex-matching name that is a
directory rather than a regular file. -/
def cfgNoLinker : Config where
  dynexeDir := "/opt/app".toList
  parentStat := none
  canonParent := []
  libEntries := [⟨"libc.so.6".toList, some FileKind.regular⟩,
    ⟨"ld-linux-x86-64.so.2".toList, some FileKind.directory⟩]
  argv0 := "dynexe".toList
  args := []
  env := []

theorem c8_no_linker_witness :
    match_linker_name cfgNoLinker.libEntries = none ∧
    runLauncher cfgNoLinker =
      Outcome.fail ("No valid linker found in ".toList ++ libDirOf cfgNoLinker
        ++ "\n".toList) 1 ∧
    ∀ p v e, runLauncher cfgNoLinker ≠ Outcome.exec p v e :=
  ⟨by decide, (c8_no_linker cfgNoLinker (by decide)).1,
    (c8_no_linker cfgNoLinker (by decide)).2⟩

/-- C9. The environment handed to `execve` is exactly the inherited
`environ`: whenever a run reaches process replacement, the passed
environment equals the configuration's environment; moreover the launcher
never reads the environment — replacing it changes nothing in the outcome
except the passed-through environment itself. -/
theorem c9_env_passthrough (c : Config) (p : Str) (v : List (Option Str))
    (e : List Str) (h : runLauncher c = Outcome.exec p v e) :
    e = c.env ∧
    ∀ env2, runLauncher { c with env := env2 } = Outcome.exec p v env2 := by
  cases hm : match_linker_name c.libEntries with
  | none =>
    rw [runLauncher, hm] at h
    exact Outcome.noConfusion h
  | some ln =>
    rw [runLauncher, hm] at h
    simp only [Outcome.exec.injEq] at h
    obtain ⟨hp, hv, he⟩ := h
    subst hp
    subst hv
    refine ⟨he.symm, fun env2 => ?_⟩
    have hm2 : match_linker_name
        (Config.libEntries { c with env := env2 }) =
        match_linker_name c.libEntries := rfl
    rw [runLauncher, hm2, hm]
    rfl

/-- A concrete run with a nonempty inherited environment. -/
def cfgEnv : Config where
  dynexeDir := "/opt/app".toList
  parentStat := none
  canonParent := []
  libEntries := [⟨"ld-musl-x86_64.so.1".toList, some FileKind.regular⟩]
  argv0 := "tool".toList
  args := []
  env := ["PATH=/usr/bin".toList]

theorem c9_env_passthrough_witness :
    runLauncher cfgEnv = Outcome.exec
      "/opt/app/shared/lib/ld-musl-x86_64.so.1".toList
      [some "/opt/app/shared/lib/ld-musl-x86_64.so.1".toList,
        some "--library-path".toList, some "/opt/app/shared/lib".toList,
        some "/opt/app/shared/bin/tool".toList, none]
      ["PATH=/usr/bin".toList] ∧
    (["PATH=/usr/bin".toList] : List Str) = cfgEnv.env ∧
    runLauncher { cfgEnv with env := ["HOME=/root".toList] } =
      Outcome.exec "/opt/app/shared/lib/ld-musl-x86_64.so.1".toList
        [some "/opt/app/shared/lib/ld-musl-x86_64.so.1".toList,
          some "--library-path".toList, some "/opt/app/shared/lib".toList,
          some "/opt/app/shared/bin/tool".toList, none]
        ["HOME=/root".toList] :=
  ⟨by decide,
    (c9_env_passthrough cfgEnv
      "/opt/app/shared/lib/ld-musl-x86_64.so.1".toList
      [some "/opt/app/shared/lib/ld-musl-x86_64.so.1".toList,
        some "--library-path".toList, some "/opt/app/shared/lib".toList,
        some "/opt/app/shared/bin/tool".toList, none]
      ["PATH=/usr/bin".toList] (by decide)).1,
    (c9_env_passthrough cfgEnv
      "/opt/app/shared/lib/ld-musl-x86_64.so.1".toList
      [some "/opt/app/shared/lib/ld-musl-x86_64.so.1".toList,
        some "--library-path".toList, some "/opt/app/shared/lib".toList,
        some "/opt/app/shared/bin/tool".toList, none]
      ["PATH=/usr/bin".toList] (by decide)).2 ["HOME=/root".toList]⟩

/-- C10. When the basename of `argv[0]` is `"dynexe"` and no further
argument was supplied (`argc = 1`), the dispatch shift does not fire: the
target is `binDir ++ "/dynexe"`, the forwarded-argument list is empty, and
— provided a linker is found — process replacement is still attempted (no
diagnostic, no early exit for this case). -/
theorem c10_dispatch_no_args (c : Config) (ln : Str)
    (h0 : custom_basename c.argv0 = dynexeName) (h1 : c.args = [])
    (h2 : match_linker_name c.libEntries = some ln) :
    targetOf c = binDirOf c ++ '/' :: dynexeName ∧ fwdOf c = [] ∧
    runLauncher c = Outcome.exec (libDirOf c ++ '/' :: ln)
      [some (libDirOf c ++ '/' :: ln), some libFlag, some (libDirOf c),
        some (targetOf c), none] c.env := by
  have hb : binNameOf c = dynexeName := by
    simp [binNameOf, dispatch, h1, h0]
  have hf : fwdOf c = [] := by simp [fwdOf, dispatch, h1]
  refine ⟨by rw [targetOf, hb], hf, ?_⟩
  simp [runLauncher, h2, hf]

/-- A concrete bare invocation `dynexe` with no arguments. -/
def cfgNoArgs : Config where
  dynexeDir := "/opt/app".toList
  parentStat := none
  canonParent := []
  libEntries := [⟨"ld-linux-x86-64.so.2".toList, some FileKind.regular⟩]
  argv0 := "dynexe".toList
  args := []
  env := []

theorem c10_dispatch_no_args_witness :
    custom_basename cfgNoArgs.argv0 = dynexeName ∧
    cfgNoArgs.args = [] ∧
    match_linker_name cfgNoArgs.libEntries =
      some "ld-linux-x86-64.so.2".toList ∧
    targetOf cfgNoArgs = binDirOf cfgNoArgs ++ '/' :: dynexeName ∧
    fwdOf cfgNoArgs = [] ∧
    runLauncher cfgNoArgs = Outcome.exec
      (libDirOf cfgNoArgs ++ '/' :: "ld-linux-x86-64.so.2".toList)
      [some (libDirOf cfgNoArgs ++ '/' :: "ld-linux-x86-64.so.2".toList),
        some libFlag, some (libDirOf cfgNoArgs), some (targetOf cfgNoArgs),
        none] cfgNoArgs.env :=
  ⟨by decide, rfl, by decide,
    (c10_dispatch_no_args cfgNoArgs "ld-linux-x86-64.so.2".toList
      (by decide) rfl (by decide)).1,
    (c10_dispatch_no_args cfgNoArgs "ld-linux-x86-64.so.2".toList
      (by decide) rfl (by decide)).2.1,
    (c10_dispatch_no_args cfgNoArgs "ld-linux-x86-64.so.2".toList
      (by decide) rfl (by decide)).2.2⟩

end Dynexec
